import Mathlib

/-!
Verification of the Animatronic AI and Night-Progression engine of
Hollow Creek (src/game.js).

The embedding below translates the game-logic portion of game.js into
Lean: the static agent table `animDefs`, the per-agent mutable state
created at module load, the night/hour/power clock tick installed by
`beginGamePlay`, the per-frame `updateAI` pass (movement, surveillance
refresh, entry rules), the breach trigger `triggerEntry` with its
2200 ms auto-resolve timeout (modelled as an explicit deadline), and the
menu entry point `startNewGame`.  Timestamps and intervals are rational
numbers (JS numbers holding millisecond values); the random draws of
`Math.random` are passed in explicitly (a location draw is a uniform
index into the allowed-location array, a power draw is a uniform element
of 0..5).
-/

namespace HollowCreek

/-- The four roaming agents declared in the animDefs table of game.js. -/
inductive AgentName
  | vale
  | patch
  | lulla
  | rust
deriving DecidableEq, Repr

/-- Static per-agent configuration: the animDefs table of game.js
(allowed camera ids, starting camera, base move interval in ms,
first night on which the agent is active).  The color field is
presentation-only and omitted. -/
structure AgentDef where
  allowed : List Nat
  start : Nat
  baseInterval : ℚ
  activeFrom : Nat

/-- The animDefs table of game.js, lines 51-56. -/
def animDefs : AgentName → AgentDef
  | .vale  => { allowed := [1, 3, 5],    start := 1, baseInterval := 25000, activeFrom := 3 }
  | .patch => { allowed := [1, 2, 4],    start := 1, baseInterval := 28000, activeFrom := 2 }
  | .lulla => { allowed := [1, 3, 4, 5], start := 1, baseInterval := 32000, activeFrom := 1 }
  | .rust  => { allowed := [6],          start := 6, baseInterval := 42000, activeFrom := 5 }

/-- Mutable per-agent state: the anims[k] runtime objects of game.js,
lines 57-63.  The breachEnd field makes the 2200 ms setTimeout deadline
of triggerEntry explicit (none when no auto-resolve timer is pending). -/
structure AgentState where
  cam : Nat
  lastMove : ℚ
  baseInterval : ℚ
  inOffice : Bool
  active : Bool
  lastSeen : ℚ
  breachEnd : Option ℚ
deriving DecidableEq, Repr

/-- The agent state built at module load time (game.js lines 58-63),
with t0 standing for the Date.now() value at load. -/
def initAgent (t0 : ℚ) (n : AgentName) : AgentState :=
  { cam := (animDefs n).start
    lastMove := t0
    baseInterval := (animDefs n).baseInterval
    inOffice := false
    active := false
    lastSeen := t0
    breachEnd := none }

/-- The module-level mutable state of game.js that the engine reads and
writes: menu/started flags, the night clock, the deterrence surface
(doors and monitor) and the agent map. -/
structure GameState where
  started : Bool
  inMenu : Bool
  night : Nat
  hour : Nat
  power : Nat
  doorLeftClosed : Bool
  doorRightClosed : Bool
  monitorOpen : Bool
  monitorSingle : Option Nat
  anims : AgentName → AgentState

/-- The state right after module load (game.js lines 24-33 and 57-63). -/
def initState (t0 : ℚ) : GameState :=
  { started := false
    inMenu := true
    night := 1
    hour := 0
    power := 100
    doorLeftClosed := false
    doorRightClosed := false
    monitorOpen := false
    monitorSingle := none
    anims := initAgent t0 }

/-- Observable events the engine emits for the presentation layer:
the step_heavy footstep sound on a relocation, and the jumpscare/entry
event of triggerEntry carrying the agent id. -/
inductive Event
  | footstep (n : AgentName)
  | entry (n : AgentName)
deriving DecidableEq, Repr

/-- The NIGHT_SPEED difficulty table of game.js lines 397-405, folded
together with the `NIGHT_SPEED[night] || 1.0` fallback used at line 413:
nights outside the table yield 1.0 (no table entry is zero, so the JS
truthiness fallback fires exactly on missing keys). -/
def nightSpeed (night : Nat) : ℚ :=
  match night with
  | 1 => 1.6
  | 2 => 1.25
  | 3 => 1.0
  | 4 => 0.95
  | 5 => 0.85
  | 6 => 0.6
  | 7 => 0.5
  | _ => 1.0

/-- The effective move interval of game.js line 413:
Math.max(700, a.baseInterval * (NIGHT_SPEED[night] || 1.0)). -/
def effInterval (night : Nat) (base : ℚ) : ℚ :=
  max 700 (base * nightSpeed night)

/-- The location draw arr[Math.floor(Math.random()*arr.length)] of
game.js line 416, with the uniform index passed in as i; the index is
reduced mod the length so the function is total (actual draws are
already in range). -/
def pickLoc (arr : List Nat) (i : Nat) : Nat :=
  arr.getD (i % arr.length) 0

/-- The breach transition performed inline at game.js lines 427-433
together with the timeout scheduled by triggerEntry (line 442): the
agent enters the office and an auto-resolve deadline 2200 ms from now is
recorded. -/
def breachAgent (now : ℚ) (a : AgentState) : AgentState :=
  { a with inOffice := true, breachEnd := some (now + 2200) }

/-- The movement step of game.js lines 414-420 for one agent: when more
than the effective interval has elapsed since lastMove, redraw the
camera from the allowed list, stamp lastMove and lastSeen with now, and
emit the footstep sound event. -/
def moveStep (n : AgentName) (night : Nat) (now : ℚ) (draw : Nat) (a : AgentState) :
    AgentState × List Event :=
  if now - a.lastMove > effInterval night a.baseInterval then
    ({ a with cam := pickLoc (animDefs n).allowed draw, lastMove := now, lastSeen := now },
      [Event.footstep n])
  else (a, [])

/-- The surveillance refresh of game.js lines 421-424 for one agent:
with the monitor open, grid view refreshes lastSeen unconditionally and
single view refreshes it only when the agent stands at the selected
camera; with the monitor closed nothing happens. -/
def seenStep (monitorOpen : Bool) (monitorSingle : Option Nat) (now : ℚ) (a : AgentState) :
    AgentState :=
  if monitorOpen then
    match monitorSingle with
    | none => { a with lastSeen := now }
    | some c => if a.cam = c then { a with lastSeen := now } else a
  else a

/-- The per-agent entry rules of game.js lines 425-434: rust breaches
when unseen for more than 30000 ms, vale when standing at camera 3 with
the right door open, patch when standing at camera 6 with the left door
open, and lulla when standing at camera 3 with the right door open
within 0.45 of its effective interval after its last move. -/
def entryStep (n : AgentName) (night : Nat) (now : ℚ)
    (doorLeftClosed doorRightClosed : Bool) (a : AgentState) : AgentState × List Event :=
  match n with
  | .rust =>
      if now - a.lastSeen > 30000 ∧ a.inOffice = false then
        (breachAgent now a, [Event.entry .rust])
      else (a, [])
  | .vale =>
      if a.cam = 3 ∧ doorRightClosed = false then
        (breachAgent now a, [Event.entry .vale])
      else (a, [])
  | .patch =>
      if a.cam = 6 ∧ doorLeftClosed = false then
        (breachAgent now a, [Event.entry .patch])
      else (a, [])
  | .lulla =>
      if a.cam = 3 ∧ doorRightClosed = false ∧
          now - a.lastMove < effInterval night a.baseInterval * 0.45 then
        (breachAgent now a, [Event.entry .lulla])
      else (a, [])

/-- One full updateAI pass for one agent (game.js lines 409-435): the
active flag is recomputed from the night, inactive and breached agents
are skipped after that recomputation, and otherwise movement,
surveillance refresh and the entry rules run in order on the same tick
timestamp. -/
def updateAgent (n : AgentName) (night : Nat) (now : ℚ)
    (doorLeftClosed doorRightClosed monitorOpen : Bool) (monitorSingle : Option Nat)
    (draw : Nat) (a : AgentState) : AgentState × List Event :=
  let a0 : AgentState := { a with active := decide ((animDefs n).activeFrom ≤ night) }
  if a0.active = false then (a0, [])
  else if a0.inOffice = true then (a0, [])
  else
    let m := moveStep n night now draw a0
    let a2 := seenStep monitorOpen monitorSingle now m.1
    let e := entryStep n night now doorLeftClosed doorRightClosed a2
    (e.1, m.2 ++ e.2)

/-- The whole updateAI(now) call of game.js line 408: every agent is
updated independently from the shared night, door and monitor state;
events are collected in the Object.values iteration order. -/
def updateAI (s : GameState) (now : ℚ) (draws : AgentName → Nat) : GameState × List Event :=
  let f := fun n => updateAgent n s.night now s.doorLeftClosed s.doorRightClosed
      s.monitorOpen s.monitorSingle (draws n) (s.anims n)
  ({ s with anims := fun n => (f n).1 },
    (f .vale).2 ++ ((f .patch).2 ++ ((f .lulla).2 ++ (f .rust).2)))

/-- The body of the setTimeout scheduled by triggerEntry (game.js line
442), firing at instant t: the agent leaves the office and its lastMove
is stamped with the firing instant. -/
def expireBreach (s : GameState) (n : AgentName) (t : ℚ) : GameState :=
  { s with anims := (Function.update s.anims n
      { s.anims n with inOffice := false, lastMove := t, breachEnd := none }) }

/-- The 90-second hour ticker installed by beginGamePlay (game.js lines
214-223), with the Math.floor(Math.random()*6) power draw passed in as
delta: advance the hour, wrap into the next night capped at 7, drain
power saturating at 0 (Nat subtraction is the Math.max(0, _) clamp), and
recompute each active flag from the possibly new night. -/
def clockTick (s : GameState) (delta : Fin 6) : GameState :=
  if s.started = false then s
  else
    let h1 := s.hour + 1
    let night1 := if h1 > 7 then min 7 (s.night + 1) else s.night
    let hour1 := if h1 > 7 then 0 else h1
    { s with
      hour := hour1
      night := night1
      power := s.power - delta.val
      anims := fun n => { s.anims n with active := decide ((animDefs n).activeFrom ≤ night1) } }

/-- The active-flag initialization of beginGamePlay (game.js line 211). -/
def beginGamePlayInit (s : GameState) : GameState :=
  { s with anims := fun n => { s.anims n with active := decide ((animDefs n).activeFrom ≤ s.night) } }

/-- startNewGame of game.js lines 192-196: leave the menu, mark the game
started, reset the night clock, then run the beginGamePlay agent-flag
initialization.  Note that the per-agent cam, lastMove, lastSeen and
inOffice fields are NOT touched here; they are written only at module
load and by the simulation itself. -/
def startNewGame (s : GameState) : GameState :=
  beginGamePlayInit
    { s with inMenu := false, started := true, night := 1, hour := 0, power := 100 }

/-- The deterrence-surface writes of the input layer (door toggles and
monitor selection in handleTap, game.js lines 480-519), abstracted as an
arbitrary simultaneous assignment of the four player-owned flags; the
input layer never writes any other engine state. -/
def setInput (s : GameState) (dl dr mo : Bool) (ms : Option Nat) : GameState :=
  { s with doorLeftClosed := dl, doorRightClosed := dr,
           monitorOpen := mo, monitorSingle := ms }

/-- One step of the whole simulation: a startNewGame click, an hour
tick, an updateAI frame, a pending breach timeout firing at its recorded
deadline, or a player input. -/
inductive Step : GameState → GameState → Prop
  | newGame (s : GameState) : Step s (startNewGame s)
  | clock (s : GameState) (delta : Fin 6) : Step s (clockTick s delta)
  | ai (s : GameState) (now : ℚ) (draws : AgentName → Nat) : Step s (updateAI s now draws).1
  | expire (s : GameState) (n : AgentName) (t : ℚ)
      (h : (s.anims n).breachEnd = some t) : Step s (expireBreach s n t)
  | input (s : GameState) (dl dr mo : Bool) (ms : Option Nat) : Step s (setInput s dl dr mo ms)

/-- States reachable from the module-load state by any sequence of
simulation steps. -/
def Reachable (t0 : ℚ) (s : GameState) : Prop :=
  Relation.ReflTransGen Step (initState t0) s

/-! ### Basic facts about the location draw -/

lemma pickLoc_eq_get (arr : List Nat) (i : Nat) (h : i < arr.length) :
    pickLoc arr i = arr.getD i 0 := by
  rw [pickLoc, Nat.mod_eq_of_lt h]

lemma pickLoc_mem (arr : List Nat) (h : arr ≠ []) (i : Nat) : pickLoc arr i ∈ arr := by
  have hlen : 0 < arr.length := List.length_pos.mpr h
  have hlt : i % arr.length < arr.length := Nat.mod_lt _ hlen
  rw [pickLoc, List.getD_eq_getElem?_getD, List.getElem?_eq_getElem hlt, Option.getD_some]
  exact List.getElem_mem hlt

lemma pickLoc_surj (arr : List Nat) (c : Nat) (hc : c ∈ arr) :
    ∃ i, i < arr.length ∧ pickLoc arr i = c := by
  obtain ⟨⟨i, hi⟩, rfl⟩ := List.mem_iff_get.mp hc
  refine ⟨i, hi, ?_⟩
  rw [pickLoc_eq_get arr i hi, List.getD_eq_getElem?_getD, List.getElem?_eq_getElem hi,
    Option.getD_some]
  simp [List.get_eq_getElem]

/-! ### Shape lemmas about one updateAI pass -/

lemma updateAgent_run (n : AgentName) (night : Nat) (now : ℚ) (dl dr mo : Bool)
    (ms : Option Nat) (draw : Nat) (a : AgentState)
    (hact : (animDefs n).activeFrom ≤ night) (hoff : a.inOffice = false) :
    updateAgent n night now dl dr mo ms draw a =
      ((entryStep n night now dl dr
          (seenStep mo ms now (moveStep n night now draw { a with active := true }).1)).1,
        (moveStep n night now draw { a with active := true }).2 ++
          (entryStep n night now dl dr
            (seenStep mo ms now (moveStep n night now draw { a with active := true }).1)).2) := by
  have hd : decide ((animDefs n).activeFrom ≤ night) = true := decide_eq_true hact
  simp [updateAgent, hd, hoff]

lemma updateAgent_skip (n : AgentName) (night : Nat) (now : ℚ) (dl dr mo : Bool)
    (ms : Option Nat) (draw : Nat) (a : AgentState) (hoff : a.inOffice = true) :
    updateAgent n night now dl dr mo ms draw a =
      ({ a with active := decide ((animDefs n).activeFrom ≤ night) }, []) := by
  cases hd : decide ((animDefs n).activeFrom ≤ night) <;>
    simp [updateAgent, hd, hoff]

lemma seenStep_cam (mo : Bool) (ms : Option Nat) (now : ℚ) (a : AgentState) :
    (seenStep mo ms now a).cam = a.cam := by
  cases mo with
  | false => rfl
  | true =>
    cases ms with
    | none => rfl
    | some c => by_cases h : a.cam = c <;> simp [seenStep, h]

lemma seenStep_inOffice (mo : Bool) (ms : Option Nat) (now : ℚ) (a : AgentState) :
    (seenStep mo ms now a).inOffice = a.inOffice := by
  cases mo with
  | false => rfl
  | true =>
    cases ms with
    | none => rfl
    | some c => by_cases h : a.cam = c <;> simp [seenStep, h]

lemma seenStep_lastMove (mo : Bool) (ms : Option Nat) (now : ℚ) (a : AgentState) :
    (seenStep mo ms now a).lastMove = a.lastMove := by
  cases mo with
  | false => rfl
  | true =>
    cases ms with
    | none => rfl
    | some c => by_cases h : a.cam = c <;> simp [seenStep, h]

lemma entryStep_lastSeen (n : AgentName) (night : Nat) (now : ℚ) (dl dr : Bool)
    (a : AgentState) :
    ((entryStep n night now dl dr a).1).lastSeen = a.lastSeen := by
  cases n <;> simp only [entryStep] <;> (split <;> rfl)

lemma moveStep_events (n : AgentName) (night : Nat) (now : ℚ) (draw : Nat) (a : AgentState) :
    (moveStep n night now draw a).2 = [Event.footstep n] ∨
      (moveStep n night now draw a).2 = [] := by
  rw [moveStep]
  split
  · exact Or.inl rfl
  · exact Or.inr rfl

lemma entryStep_events (n : AgentName) (night : Nat) (now : ℚ) (dl dr : Bool)
    (a : AgentState) :
    (entryStep n night now dl dr a).2 = [Event.entry n] ∨
      (entryStep n night now dl dr a).2 = [] := by
  cases n <;> simp only [entryStep] <;>
    (split <;> [exact Or.inl rfl; exact Or.inr rfl])

lemma updateAgent_event_mem (n : AgentName) (night : Nat) (now : ℚ) (dl dr mo : Bool)
    (ms : Option Nat) (draw : Nat) (a : AgentState) (e : Event)
    (he : e ∈ (updateAgent n night now dl dr mo ms draw a).2) :
    e = Event.footstep n ∨ e = Event.entry n := by
  simp only [updateAgent] at he
  split at he
  · simp at he
  · split at he
    · simp at he
    · rw [List.mem_append] at he
      rcases he with h | h
      · rcases moveStep_events n night now draw
            ({ a with active := decide ((animDefs n).activeFrom ≤ night) } : AgentState)
          with hm | hm <;> rw [hm] at h <;> simp at h
        exact Or.inl h
      · rcases entryStep_events n night now dl dr (seenStep mo ms now
            (moveStep n night now draw
              ({ a with active := decide ((animDefs n).activeFrom ≤ night) } : AgentState)).1)
          with hent | hent <;> rw [hent] at h <;> simp at h
        exact Or.inr h

/-! ### C8: the difficulty table -/

/-- C8: for every night in 1..7 the difficulty multiplier used to scale
agent move intervals equals the fixed table value 1:1.6, 2:1.25, 3:1.0,
4:0.95, 5:0.85, 6:0.6, 7:0.5; for every night outside 1..7 it equals
1.0; and for every agent the effective move interval equals
max(700, baseInterval * multiplier). -/
theorem difficulty_table (night : Nat) (h : 8 ≤ night) :
    nightSpeed 1 = 1.6 ∧ nightSpeed 2 = 1.25 ∧ nightSpeed 3 = 1.0 ∧ nightSpeed 4 = 0.95 ∧
    nightSpeed 5 = 0.85 ∧ nightSpeed 6 = 0.6 ∧ nightSpeed 7 = 0.5 ∧
    nightSpeed 0 = 1.0 ∧ nightSpeed night = 1.0 ∧
    (∀ m : Nat, ∀ b : ℚ, effInterval m b = max 700 (b * nightSpeed m)) := by
  obtain ⟨k, rfl⟩ : ∃ k, night = k + 8 := ⟨night - 8, by omega⟩
  exact ⟨rfl, rfl, rfl, rfl, rfl, rfl, rfl, rfl, rfl, fun m b => rfl⟩

/-- Witness for C8 at night 8. -/
theorem difficulty_table_witness :
    8 ≤ 8 ∧
    (nightSpeed 1 = 1.6 ∧ nightSpeed 2 = 1.25 ∧ nightSpeed 3 = 1.0 ∧ nightSpeed 4 = 0.95 ∧
    nightSpeed 5 = 0.85 ∧ nightSpeed 6 = 0.6 ∧ nightSpeed 7 = 0.5 ∧
    nightSpeed 0 = 1.0 ∧ nightSpeed 8 = 1.0 ∧
    (∀ m : Nat, ∀ b : ℚ, effInterval m b = max 700 (b * nightSpeed m))) :=
  ⟨by decide, difficulty_table 8 (by decide)⟩

/-! ### C1: what startNewGame actually resets -/

/-- C1 (amended): startNewGame resets the night clock to night=1,
hourOfNight=0, power=100, marks the game started, and recomputes every
active flag from night=1 (so every agent with activationNight above 1
reports active=false); it leaves every agent at its current location,
timestamps, and inOffice flag from before the call.  Those per-agent
fields equal the definition defaults only because module initialization
set them, so from the module-load state the post-startNewGame state has
every agent at its starting location and nobody breached. -/
theorem startNewGame_resets (t0 : ℚ) (s : GameState) (n : AgentName) :
    (startNewGame s).night = 1 ∧ (startNewGame s).hour = 0 ∧ (startNewGame s).power = 100 ∧
    (startNewGame s).started = true ∧
    (((startNewGame s).anims n).active = true ↔ (animDefs n).activeFrom ≤ 1) ∧
    ((startNewGame s).anims n).cam = (s.anims n).cam ∧
    ((startNewGame s).anims n).lastMove = (s.anims n).lastMove ∧
    ((startNewGame s).anims n).lastSeen = (s.anims n).lastSeen ∧
    ((startNewGame s).anims n).inOffice = (s.anims n).inOffice ∧
    ((startNewGame s).anims n).breachEnd = (s.anims n).breachEnd ∧
    ((startNewGame (initState t0)).anims n).cam = (animDefs n).start ∧
    ((startNewGame (initState t0)).anims n).inOffice = false := by
  refine ⟨rfl, rfl, rfl, rfl, ?_, rfl, rfl, rfl, rfl, rfl, rfl, rfl⟩
  simp [startNewGame, beginGamePlayInit]

/-- A mid-session game state: patch has wandered to camera 2 and vale is
currently breached. -/
def midSessionState : GameState :=
  { initState 0 with anims := (fun n =>
      match n with
      | .patch => { initAgent 0 .patch with cam := 2 }
      | .vale => { initAgent 0 .vale with inOffice := true }
      | m => initAgent 0 m) }

/-- C1 counterexample: calling startNewGame from a mid-session state does
not restore the agent fields to the definition defaults: patch stays at
camera 2 instead of its starting camera 1, and the breached vale stays
breached, contradicting the claim that newGame reinitializes every
mutable agent field and leaves no agent breached. -/
theorem startNewGame_not_reset_cex :
    ((startNewGame midSessionState).anims AgentName.patch).cam = 2 ∧
    ((startNewGame midSessionState).anims AgentName.patch).cam ≠ (animDefs AgentName.patch).start ∧
    ((startNewGame midSessionState).anims AgentName.vale).inOffice = true := by
  refine ⟨rfl, ?_, rfl⟩
  decide

/-! ### C2: the two location+door entry rules -/

/-- C2 (amended): vale has trigger location 3 with the right door and
that location belongs to its allowed set; patch has trigger location 6
with the left door but 6 is NOT a member of its allowed set {1,2,4}.
For both agents the rule itself behaves as specified: whenever the (not
breached) agent stands at its trigger location with the corresponding
door open at the entry evaluation, it breaches and an entry event with
its id is emitted. -/
theorem location_door_rules (night : Nat) (now : ℚ) (dl dr : Bool) (a b : AgentState)
    (ha : a.cam = 3) (haoff : a.inOffice = false) (hdr : dr = false)
    (hb : b.cam = 6) (hboff : b.inOffice = false) (hdl : dl = false) :
    3 ∈ (animDefs AgentName.vale).allowed ∧
    6 ∉ (animDefs AgentName.patch).allowed ∧
    ((entryStep .vale night now dl dr a).1).inOffice = true ∧
    (entryStep .vale night now dl dr a).2 = [Event.entry .vale] ∧
    ((entryStep .patch night now dl dr b).1).inOffice = true ∧
    (entryStep .patch night now dl dr b).2 = [Event.entry .patch] := by
  subst hdr hdl
  refine ⟨by decide, by decide, ?_, ?_, ?_, ?_⟩ <;>
    simp [entryStep, breachAgent, ha, hb]

/-- An agent state standing at camera 3 (the vale trigger location). -/
def camThreeAgent : AgentState := { initAgent 0 .vale with cam := 3 }

/-- An agent state standing at camera 6 (the patch trigger location). -/
def camSixAgent : AgentState := { initAgent 0 .patch with cam := 6 }

/-- Witness for C2 with both doors open. -/
theorem location_door_rules_witness :
    camThreeAgent.cam = 3 ∧ camThreeAgent.inOffice = false ∧
    camSixAgent.cam = 6 ∧ camSixAgent.inOffice = false ∧
    (3 ∈ (animDefs AgentName.vale).allowed ∧
      6 ∉ (animDefs AgentName.patch).allowed ∧
      ((entryStep .vale 2 1000 false false camThreeAgent).1).inOffice = true ∧
      (entryStep .vale 2 1000 false false camThreeAgent).2 = [Event.entry .vale] ∧
      ((entryStep .patch 2 1000 false false camSixAgent).1).inOffice = true ∧
      (entryStep .patch 2 1000 false false camSixAgent).2 = [Event.entry .patch]) :=
  ⟨rfl, rfl, rfl, rfl,
    location_door_rules 2 1000 false false camThreeAgent camSixAgent
      rfl rfl rfl rfl rfl rfl⟩

/-- C2 counterexample: the trigger location of patch, camera 6, is not a
member of its allowed-location set {1,2,4}, so the membership part of
the claim is false. -/
theorem patch_trigger_not_allowed_cex : (6 : Nat) ∉ (animDefs AgentName.patch).allowed := by
  decide

/-! ### C3: the movement scheduler -/

lemma moveStep_go (n : AgentName) (night : Nat) (now : ℚ) (draw : Nat) (a : AgentState)
    (ha : now - a.lastMove > effInterval night a.baseInterval) :
    moveStep n night now draw a =
      ({ a with cam := pickLoc (animDefs n).allowed draw, lastMove := now, lastSeen := now },
        [Event.footstep n]) := by
  rw [moveStep, if_pos ha]

lemma moveStep_stay (n : AgentName) (night : Nat) (now : ℚ) (draw : Nat) (b : AgentState)
    (hb : ¬ (now - b.lastMove > effInterval night b.baseInterval)) :
    moveStep n night now draw b = (b, []) := by
  rw [moveStep, if_neg hb]

/-- C3: for an agent whose move interval has elapsed
(now - lastMoveTimestamp above the effective interval), the movement
step redraws the location as the drawn element of its allowed-location
set (the drawn index picks list entry draw independently of the current
location, the result is always a member of the allowed set, every
allowed location is reachable by some in-range index, and the allowed
set has no duplicates, so a uniform index draw is a uniform location
draw with self-transition permitted) and stamps both lastMoveTimestamp
and lastSeenTimestamp with now, so the two coincide at the relocation
instant; when the interval has not elapsed the movement step changes
nothing and emits nothing. -/
theorem movement_scheduler (n : AgentName) (night : Nat) (now : ℚ) (draw : Nat)
    (a b : AgentState)
    (hdraw : draw < ((animDefs n).allowed).length)
    (ha : now - a.lastMove > effInterval night a.baseInterval)
    (hb : ¬ (now - b.lastMove > effInterval night b.baseInterval)) :
    ((moveStep n night now draw a).1).cam = ((animDefs n).allowed).getD draw 0 ∧
    ((moveStep n night now draw a).1).cam ∈ (animDefs n).allowed ∧
    ((moveStep n night now draw a).1).lastMove = now ∧
    ((moveStep n night now draw a).1).lastSeen = now ∧
    ((moveStep n night now draw a).1).lastSeen = ((moveStep n night now draw a).1).lastMove ∧
    (moveStep n night now draw a).2 = [Event.footstep n] ∧
    (∀ c ∈ (animDefs n).allowed,
      ∃ i, i < ((animDefs n).allowed).length ∧ pickLoc (animDefs n).allowed i = c) ∧
    ((animDefs n).allowed).Nodup ∧
    moveStep n night now draw b = (b, []) := by
  have hne : (animDefs n).allowed ≠ [] := by cases n <;> decide
  have hmove := moveStep_go n night now draw a ha
  refine ⟨?_, ?_, ?_, ?_, ?_, ?_, fun c hc => pickLoc_surj _ c hc, ?_,
    moveStep_stay n night now draw b hb⟩
  · rw [hmove]; exact pickLoc_eq_get _ _ hdraw
  · rw [hmove]; exact pickLoc_mem _ hne draw
  · rw [hmove]
  · rw [hmove]
  · rw [hmove]
  · rw [hmove]
  · cases n <;> decide

/-- A vale state overdue for a move at time 30000 on night 3. -/
def valeOverdue : AgentState := initAgent 0 .vale

/-- A vale state that moved at time 30000, hence not overdue then. -/
def valeFresh : AgentState := { initAgent 0 .vale with lastMove := 30000 }

lemma valeOverdue_elapsed :
    (30000 : ℚ) - valeOverdue.lastMove > effInterval 3 valeOverdue.baseInterval := by
  norm_num [valeOverdue, initAgent, animDefs, effInterval, nightSpeed]

lemma valeFresh_not_elapsed :
    ¬ ((30000 : ℚ) - valeFresh.lastMove > effInterval 3 valeFresh.baseInterval) := by
  norm_num [valeFresh, initAgent, animDefs, effInterval, nightSpeed]

/-- Witness for C3: vale on night 3 at time 30000 with draw index 1. -/
theorem movement_scheduler_witness :
    1 < ((animDefs AgentName.vale).allowed).length ∧
    ((30000 : ℚ) - valeOverdue.lastMove > effInterval 3 valeOverdue.baseInterval) ∧
    ¬ ((30000 : ℚ) - valeFresh.lastMove > effInterval 3 valeFresh.baseInterval) ∧
    ((moveStep .vale 3 30000 1 valeOverdue).1).cam = ((animDefs AgentName.vale).allowed).getD 1 0 ∧
    ((moveStep .vale 3 30000 1 valeOverdue).1).lastMove = 30000 ∧
    ((moveStep .vale 3 30000 1 valeOverdue).1).lastSeen = 30000 ∧
    moveStep .vale 3 30000 1 valeFresh = (valeFresh, []) :=
  ⟨by decide, valeOverdue_elapsed, valeFresh_not_elapsed,
    (movement_scheduler .vale 3 30000 1 valeOverdue valeFresh (by decide)
      valeOverdue_elapsed valeFresh_not_elapsed).1,
    (movement_scheduler .vale 3 30000 1 valeOverdue valeFresh (by decide)
      valeOverdue_elapsed valeFresh_not_elapsed).2.2.1,
    (movement_scheduler .vale 3 30000 1 valeOverdue valeFresh (by decide)
      valeOverdue_elapsed valeFresh_not_elapsed).2.2.2.1,
    (movement_scheduler .vale 3 30000 1 valeOverdue valeFresh (by decide)
      valeOverdue_elapsed valeFresh_not_elapsed).2.2.2.2.2.2.2.2⟩

/-! ### C4: the surveillance tracker -/

/-- C4: surveillance refresh per tick: with the monitor open in grid
view the surveillance step sets lastSeenTimestamp = now; with the
monitor open on a single camera only an agent standing at the selected
camera is refreshed while any other agent is untouched; with the
monitor closed the surveillance step refreshes nobody regardless of
location; and within a full agent update in grid view an active
non-breached agent ends the tick with lastSeenTimestamp = now. -/
theorem surveillance_tracker (n : AgentName) (night : Nat) (now : ℚ) (c : Nat)
    (dl dr : Bool) (draw : Nat) (ms : Option Nat) (a b : AgentState)
    (hac : a.cam = c) (hbc : b.cam ≠ c)
    (hactive : (animDefs n).activeFrom ≤ night) (haoff : a.inOffice = false) :
    seenStep true none now a = { a with lastSeen := now } ∧
    seenStep true (some c) now a = { a with lastSeen := now } ∧
    seenStep true (some c) now b = b ∧
    seenStep false ms now a = a ∧
    ((updateAgent n night now dl dr true none draw a).1).lastSeen = now := by
  refine ⟨rfl, by simp [seenStep, hac], by simp [seenStep, hbc], rfl, ?_⟩
  rw [updateAgent_run n night now dl dr true none draw a hactive haoff, entryStep_lastSeen]
  rfl

/-- A lulla state standing at camera 4. -/
def lullaAtFour : AgentState := { initAgent 0 .lulla with cam := 4 }

/-- Witness for C4: lulla on night 1, camera 1 selected. -/
theorem surveillance_tracker_witness :
    (initAgent 0 AgentName.lulla).cam = 1 ∧ lullaAtFour.cam ≠ 1 ∧
    (animDefs AgentName.lulla).activeFrom ≤ 1 ∧
    (initAgent 0 AgentName.lulla).inOffice = false ∧
    (seenStep true none 500 (initAgent 0 AgentName.lulla) =
      { initAgent 0 AgentName.lulla with lastSeen := 500 } ∧
    seenStep true (some 1) 500 (initAgent 0 AgentName.lulla) =
      { initAgent 0 AgentName.lulla with lastSeen := 500 } ∧
    seenStep true (some 1) 500 lullaAtFour = lullaAtFour ∧
    seenStep false (some 1) 500 (initAgent 0 AgentName.lulla) = initAgent 0 AgentName.lulla ∧
    ((updateAgent .lulla 1 500 false false true none 0 (initAgent 0 AgentName.lulla)).1).lastSeen
      = 500) :=
  ⟨rfl, by decide, by decide, rfl,
    surveillance_tracker .lulla 1 500 1 false false 0 (some 1)
      (initAgent 0 AgentName.lulla) lullaAtFour rfl (by decide) (by decide) rfl⟩

/-! ### C5: the rust unseen-timeout rule -/

/-- C5: the patient stalker rust, active and not breached, with no
relocation on this tick and the monitor closed, breaches as soon as the
entry evaluation sees now - lastSeenTimestamp above 30000 ms: inOffice
becomes true, the entry event with its id is the only event of the tick,
and the auto-resolve deadline now + 2200 is recorded. -/
theorem rust_unseen_timeout (night : Nat) (now : ℚ) (dl dr : Bool) (draw : Nat)
    (a : AgentState)
    (hnight : (animDefs AgentName.rust).activeFrom ≤ night)
    (hoff : a.inOffice = false)
    (hnomove : ¬ (now - a.lastMove > effInterval night a.baseInterval))
    (hunseen : now - a.lastSeen > 30000) :
    ((updateAgent .rust night now dl dr false none draw a).1).inOffice = true ∧
    (updateAgent .rust night now dl dr false none draw a).2 = [Event.entry .rust] ∧
    ((updateAgent .rust night now dl dr false none draw a).1).breachEnd = some (now + 2200) := by
  rw [updateAgent_run .rust night now dl dr false none draw a hnight hoff]
  rw [moveStep_stay .rust night now draw { a with active := true } hnomove]
  rw [show seenStep false none now ({ a with active := true } : AgentState) =
      { a with active := true } from rfl]
  have hentry : entryStep .rust night now dl dr ({ a with active := true } : AgentState) =
      (breachAgent now { a with active := true }, [Event.entry .rust]) := by
    simp only [entryStep]
    rw [if_pos (⟨hunseen, hoff⟩ : _ ∧ _)]
  rw [hentry]
  exact ⟨rfl, rfl, rfl⟩

/-- A rust state at time 100000 that just moved but has been unseen for
31000 ms. -/
def rustUnseen : AgentState :=
  { initAgent 0 .rust with lastMove := 100000, lastSeen := 69000 }

lemma rustUnseen_no_move :
    ¬ ((100000 : ℚ) - rustUnseen.lastMove > effInterval 5 rustUnseen.baseInterval) := by
  norm_num [rustUnseen, initAgent, animDefs, effInterval, nightSpeed]

lemma rustUnseen_long_unseen : (100000 : ℚ) - rustUnseen.lastSeen > 30000 := by
  norm_num [rustUnseen, initAgent, animDefs]

/-- Witness for C5: rust on night 5 at time 100000 with
lastSeen = now - 31000, monitor closed, no relocation this tick. -/
theorem rust_unseen_timeout_witness :
    (animDefs AgentName.rust).activeFrom ≤ 5 ∧
    rustUnseen.inOffice = false ∧
    ¬ ((100000 : ℚ) - rustUnseen.lastMove > effInterval 5 rustUnseen.baseInterval) ∧
    ((100000 : ℚ) - rustUnseen.lastSeen > 30000) ∧
    ((updateAgent .rust 5 100000 false false false none 0 rustUnseen).1).inOffice = true ∧
    (updateAgent .rust 5 100000 false false false none 0 rustUnseen).2 = [Event.entry .rust] :=
  ⟨by decide, rfl, rustUnseen_no_move, rustUnseen_long_unseen,
    (rust_unseen_timeout 5 100000 false false 0 rustUnseen (by decide) rfl
      rustUnseen_no_move rustUnseen_long_unseen).1,
    (rust_unseen_timeout 5 100000 false false 0 rustUnseen (by decide) rfl
      rustUnseen_no_move rustUnseen_long_unseen).2.1⟩

/-! ### C9: the lulla location+door+timing rule -/

/-- C9: for a non-breached lulla the entry rule breaches exactly when
its location is 3, the right door is open, and now - lastMoveTimestamp
is below 0.45 of its effective interval; with the same location and
door but the agent in place at least that long, the rule leaves the
state unchanged and emits nothing. -/
theorem lulla_rush_rule (night : Nat) (now : ℚ) (dl dr : Bool) (a b : AgentState)
    (hoff : a.inOffice = false) (hboff : b.inOffice = false)
    (hb : ¬ (now - b.lastMove < effInterval night b.baseInterval * 0.45)) :
    (((entryStep .lulla night now dl dr a).1).inOffice = true ↔
      a.cam = 3 ∧ dr = false ∧ now - a.lastMove < effInterval night a.baseInterval * 0.45) ∧
    ((entryStep .lulla night now dl dr a).2 = [Event.entry .lulla] ↔
      a.cam = 3 ∧ dr = false ∧ now - a.lastMove < effInterval night a.baseInterval * 0.45) ∧
    entryStep .lulla night now dl dr b = (b, []) := by
  refine ⟨?_, ?_, ?_⟩
  · simp only [entryStep]
    split
    · next h => simp [breachAgent, h]
    · next h => simp [hoff, h]
  · simp only [entryStep]
    split
    · next h => simp [h]
    · next h => simp [h]
  · simp only [entryStep]
    rw [if_neg]
    exact fun hcon => hb hcon.2.2

/-- A lulla state that relocated to camera 3 at time 90000 (recent at
time 100000 on night 3). -/
def lullaRusher : AgentState := { initAgent 0 .lulla with cam := 3, lastMove := 90000 }

/-- A lulla state camping at camera 3 since time 0 (not recent at time
100000 on night 3). -/
def lullaCamper : AgentState := { initAgent 0 .lulla with cam := 3, lastMove := 0 }

lemma lullaRusher_recent :
    (100000 : ℚ) - lullaRusher.lastMove < effInterval 3 lullaRusher.baseInterval * 0.45 := by
  norm_num [lullaRusher, initAgent, animDefs, effInterval, nightSpeed]

lemma lullaCamper_stale :
    ¬ ((100000 : ℚ) - lullaCamper.lastMove < effInterval 3 lullaCamper.baseInterval * 0.45) := by
  norm_num [lullaCamper, initAgent, animDefs, effInterval, nightSpeed]

/-- Witness for C9: at time 100000, night 3, right door open, the
recently arrived lulla breaches and the camping lulla does not. -/
theorem lulla_rush_rule_witness :
    lullaRusher.inOffice = false ∧ lullaCamper.inOffice = false ∧
    ¬ ((100000 : ℚ) - lullaCamper.lastMove < effInterval 3 lullaCamper.baseInterval * 0.45) ∧
    ((entryStep .lulla 3 100000 false false lullaRusher).1).inOffice = true ∧
    entryStep .lulla 3 100000 false false lullaCamper = (lullaCamper, []) :=
  ⟨rfl, rfl, lullaCamper_stale,
    ((lulla_rush_rule 3 100000 false false lullaRusher lullaCamper rfl rfl
      lullaCamper_stale).1).mpr ⟨rfl, rfl, lullaRusher_recent⟩,
    (lulla_rush_rule 3 100000 false false lullaRusher lullaCamper rfl rfl
      lullaCamper_stale).2.2⟩

/-! ### C6: the breach lifecycle -/

/-- C6: breach lifecycle: an updateAI pass over a breached agent only
recomputes its active flag — it emits no event and leaves its location,
timestamps and pending auto-resolve deadline untouched (the timer is
not restarted and the agent is invisible to movement, surveillance and
its own entry rule, so no second breach event can arise); a breach
raised by an entry rule records the fixed deadline now + 2200; the
timeout firing at instant t clears inOffice, stamps lastMoveTimestamp
with the expiry instant (the agent re-enters the movement pool fresh),
clears the deadline, and leaves every other agent untouched. -/
theorem breach_lifecycle (s : GameState) (n m : AgentName) (night : Nat) (now t : ℚ)
    (dl dr mo : Bool) (ms : Option Nat) (draw : Nat) (a c : AgentState)
    (hoff : a.inOffice = true) (hm : m ≠ n)
    (hc3 : c.cam = 3) (hcoff : c.inOffice = false) (hdr : dr = false) :
    updateAgent n night now dl dr mo ms draw a =
      ({ a with active := decide ((animDefs n).activeFrom ≤ night) }, []) ∧
    ((entryStep .vale night now dl dr c).1).inOffice = true ∧
    ((entryStep .vale night now dl dr c).1).breachEnd = some (now + 2200) ∧
    ((expireBreach s n t).anims n).inOffice = false ∧
    ((expireBreach s n t).anims n).lastMove = t ∧
    ((expireBreach s n t).anims n).breachEnd = none ∧
    (expireBreach s n t).anims m = s.anims m := by
  subst hdr
  have hv : entryStep .vale night now dl false c =
      (breachAgent now c, [Event.entry .vale]) := by
    simp only [entryStep]
    rw [if_pos (⟨hc3, trivial⟩ : _ ∧ _)]
  refine ⟨updateAgent_skip n night now dl false mo ms draw a hoff, ?_, ?_, ?_, ?_, ?_, ?_⟩
  · rw [hv]; rfl
  · rw [hv]; rfl
  · simp [expireBreach, Function.update_same]
  · simp [expireBreach, Function.update_same]
  · simp [expireBreach, Function.update_same]
  · simp [expireBreach, Function.update_noteq hm]

/-- A breached vale state with a pending auto-resolve deadline. -/
def breachedVale : AgentState :=
  { initAgent 0 .vale with inOffice := true, breachEnd := some 2200 }

/-- Witness for C6: breached vale at night 3, patch as the other agent,
a fresh vale at camera 3 getting a new deadline, expiry at instant
7000. -/
theorem breach_lifecycle_witness :
    breachedVale.inOffice = true ∧
    AgentName.patch ≠ AgentName.vale ∧
    camThreeAgent.cam = 3 ∧
    camThreeAgent.inOffice = false ∧
    updateAgent .vale 3 50000 false false false none 0 breachedVale =
      ({ breachedVale with active := decide ((animDefs AgentName.vale).activeFrom ≤ 3) }, []) ∧
    ((entryStep .vale 3 50000 false false camThreeAgent).1).breachEnd = some (50000 + 2200) ∧
    ((expireBreach (initState 0) .vale 7000).anims .vale).inOffice = false ∧
    ((expireBreach (initState 0) .vale 7000).anims .vale).lastMove = 7000 ∧
    (expireBreach (initState 0) .vale 7000).anims .patch = (initState 0).anims .patch :=
  ⟨rfl, by decide, rfl, rfl,
    (breach_lifecycle (initState 0) .vale .patch 3 50000 7000 false false false none 0
      breachedVale camThreeAgent rfl (by decide) rfl rfl rfl).1,
    (breach_lifecycle (initState 0) .vale .patch 3 50000 7000 false false false none 0
      breachedVale camThreeAgent rfl (by decide) rfl rfl rfl).2.2.1,
    (breach_lifecycle (initState 0) .vale .patch 3 50000 7000 false false false none 0
      breachedVale camThreeAgent rfl (by decide) rfl rfl rfl).2.2.2.1,
    (breach_lifecycle (initState 0) .vale .patch 3 50000 7000 false false false none 0
      breachedVale camThreeAgent rfl (by decide) rfl rfl rfl).2.2.2.2.1,
    (breach_lifecycle (initState 0) .vale .patch 3 50000 7000 false false false none 0
      breachedVale camThreeAgent rfl (by decide) rfl rfl rfl).2.2.2.2.2.2⟩

/-! ### C7: the night clock -/

/-- The clock invariant preserved by every simulation step: hour in
0..7, night in 1..7, power at most 100. -/
def ClockInv (s : GameState) : Prop :=
  s.hour ≤ 7 ∧ 1 ≤ s.night ∧ s.night ≤ 7 ∧ s.power ≤ 100

lemma clockTick_not_started (s : GameState) (delta : Fin 6) (h : s.started = false) :
    clockTick s delta = s := by
  rw [clockTick, if_pos h]

lemma clockTick_started (s : GameState) (delta : Fin 6) (h : s.started = true) :
    clockTick s delta =
      { s with
        hour := if s.hour + 1 > 7 then 0 else s.hour + 1
        night := if s.hour + 1 > 7 then min 7 (s.night + 1) else s.night
        power := s.power - delta.val
        anims := (fun n => { s.anims n with active := decide ((animDefs n).activeFrom ≤ (if s.hour + 1 > 7 then min 7 (s.night + 1) else s.night)) }) } := by
  rw [clockTick, if_neg (by simp [h])]

lemma clockInv_tick {s : GameState} (delta : Fin 6) (hs : ClockInv s) :
    ClockInv (clockTick s delta) := by
  obtain ⟨h1, h2, h3, h4⟩ := hs
  cases hst : s.started with
  | false => rw [clockTick_not_started s delta hst]; exact ⟨h1, h2, h3, h4⟩
  | true =>
    rw [clockTick_started s delta hst]
    refine ⟨?_, ?_, ?_, ?_⟩
    · show (if s.hour + 1 > 7 then 0 else s.hour + 1) ≤ 7
      split_ifs <;> omega
    · show 1 ≤ (if s.hour + 1 > 7 then min 7 (s.night + 1) else s.night)
      split_ifs <;> omega
    · show (if s.hour + 1 > 7 then min 7 (s.night + 1) else s.night) ≤ 7
      split_ifs <;> omega
    · show s.power - delta.val ≤ 100
      omega

lemma clockInv_step {s s' : GameState} (h : Step s s') (hs : ClockInv s) : ClockInv s' := by
  cases h with
  | newGame => refine ⟨?_, ?_, ?_, ?_⟩ <;> simp [startNewGame, beginGamePlayInit]
  | clock delta => exact clockInv_tick delta hs
  | ai now draws => exact hs
  | expire n t h => exact hs
  | input dl dr mo ms => exact hs

lemma clockInv_reachable (t0 : ℚ) (s : GameState) (h : Reachable t0 s) : ClockInv s := by
  induction h with
  | refl =>
    refine ⟨?_, ?_, ?_, ?_⟩
    · show (0 : Nat) ≤ 7
      decide
    · show (1 : Nat) ≤ 1
      decide
    · show (1 : Nat) ≤ 7
      decide
    · show (100 : Nat) ≤ 100
      decide
  | tail _ hstep ih => exact clockInv_step hstep ih

/-- C7: a started clock tick advances hourOfNight by one; when the new
value exceeds 7 it wraps to 0 and night becomes min(7, night + 1),
advancing by exactly one while below the cap and never reaching 8;
power becomes the saturating difference power - delta with the drawn
delta at most 5, never increasing; and on every state reachable from
the reset entry point, hourOfNight stays in 0..7, night stays in 1..7,
power stays in 0..100, night never decreases on a tick, and the
updateAI pass touches neither night nor power. -/
theorem night_clock (t0 : ℚ) (s sw sr : GameState) (delta : Fin 6)
    (hs : s.started = true) (hnw : s.hour < 7)
    (hsw : sw.started = true) (hw : 7 ≤ sw.hour) (hlt : sw.night < 7)
    (hreach : Reachable t0 sr) :
    (clockTick s delta).hour = s.hour + 1 ∧
    (clockTick s delta).night = s.night ∧
    (clockTick sw delta).hour = 0 ∧
    (clockTick sw delta).night = min 7 (sw.night + 1) ∧
    (clockTick sw delta).night = sw.night + 1 ∧
    (clockTick sw delta).night ≤ 7 ∧
    (clockTick s delta).power = s.power - delta.val ∧
    ((clockTick s delta).power : ℤ) = max 0 ((s.power : ℤ) - (delta.val : ℤ)) ∧
    delta.val ≤ 5 ∧
    (clockTick sr delta).power ≤ sr.power ∧
    (sr.hour ≤ 7 ∧ 1 ≤ sr.night ∧ sr.night ≤ 7 ∧ sr.power ≤ 100) ∧
    sr.night ≤ (clockTick sr delta).night ∧
    (∀ (now : ℚ) (draws : AgentName → Nat),
      ((updateAI sr now draws).1).night = sr.night ∧
      ((updateAI sr now draws).1).power = sr.power) := by
  have hinv := clockInv_reachable t0 sr hreach
  obtain ⟨hi1, hi2, hi3, hi4⟩ := hinv
  rw [clockTick_started s delta hs, clockTick_started sw delta hsw]
  have hwrap : sw.hour + 1 > 7 := by omega
  have hnwrap : ¬ (s.hour + 1 > 7) := by omega
  refine ⟨?_, ?_, ?_, ?_, ?_, ?_, rfl, ?_, ?_, ?_, ⟨hi1, hi2, hi3, hi4⟩, ?_,
    fun now draws => ⟨rfl, rfl⟩⟩
  · show (if s.hour + 1 > 7 then 0 else s.hour + 1) = s.hour + 1
    rw [if_neg hnwrap]
  · show (if s.hour + 1 > 7 then min 7 (s.night + 1) else s.night) = s.night
    rw [if_neg hnwrap]
  · show (if sw.hour + 1 > 7 then 0 else sw.hour + 1) = 0
    rw [if_pos hwrap]
  · show (if sw.hour + 1 > 7 then min 7 (sw.night + 1) else sw.night) = min 7 (sw.night + 1)
    rw [if_pos hwrap]
  · show (if sw.hour + 1 > 7 then min 7 (sw.night + 1) else sw.night) = sw.night + 1
    rw [if_pos hwrap]
    omega
  · show (if sw.hour + 1 > 7 then min 7 (sw.night + 1) else sw.night) ≤ 7
    split_ifs <;> omega
  · show ((s.power - delta.val : Nat) : ℤ) = max 0 ((s.power : ℤ) - (delta.val : ℤ))
    omega
  · have := delta.isLt
    omega
  · cases hsr : sr.started with
    | false => rw [clockTick_not_started sr delta hsr]
    | true => rw [clockTick_started sr delta hsr]; exact Nat.sub_le _ _
  · cases hsr : sr.started with
    | false => rw [clockTick_not_started sr delta hsr]
    | true =>
      rw [clockTick_started sr delta hsr]
      show sr.night ≤ (if sr.hour + 1 > 7 then min 7 (sr.night + 1) else sr.night)
      split_ifs <;> omega

/-- The state right after clicking New Game from the load state. -/
def afterNewGame : GameState := startNewGame (initState 0)

/-- The post-reset state sitting at the last hour of the night. -/
def wrapState : GameState := { afterNewGame with hour := 7 }

/-- Witness for C7: the fresh game state, the same state at hour 7, the
load state as reachable state, and power draw 3. -/
theorem night_clock_witness :
    afterNewGame.started = true ∧ afterNewGame.hour < 7 ∧
    wrapState.started = true ∧ 7 ≤ wrapState.hour ∧ wrapState.night < 7 ∧
    ((clockTick afterNewGame 3).hour = afterNewGame.hour + 1 ∧
    (clockTick afterNewGame 3).night = afterNewGame.night ∧
    (clockTick wrapState 3).hour = 0 ∧
    (clockTick wrapState 3).night = min 7 (wrapState.night + 1) ∧
    (clockTick wrapState 3).night = wrapState.night + 1 ∧
    (clockTick wrapState 3).night ≤ 7 ∧
    (clockTick afterNewGame 3).power = afterNewGame.power - (3 : Fin 6).val ∧
    ((clockTick afterNewGame 3).power : ℤ) =
      max 0 ((afterNewGame.power : ℤ) - ((3 : Fin 6).val : ℤ)) ∧
    (3 : Fin 6).val ≤ 5 ∧
    (clockTick (initState 0) 3).power ≤ (initState 0).power ∧
    ((initState 0).hour ≤ 7 ∧ 1 ≤ (initState 0).night ∧ (initState 0).night ≤ 7 ∧
      (initState 0).power ≤ 100) ∧
    (initState 0).night ≤ (clockTick (initState 0) 3).night ∧
    (∀ (now : ℚ) (draws : AgentName → Nat),
      ((updateAI (initState 0) now draws).1).night = (initState 0).night ∧
      ((updateAI (initState 0) now draws).1).power = (initState 0).power)) :=
  ⟨by decide, by decide, by decide, by decide, by decide,
    night_clock 0 afterNewGame wrapState (initState 0) 3
      (by decide) (by decide) (by decide) (by decide) (by decide)
      Relation.ReflTransGen.refl⟩

/-! ### C10: patch can never breach the office -/

/-- The patch safety invariant: patch stands inside its allowed set and
is not breached. -/
def PatchSafe (s : GameState) : Prop :=
  (s.anims AgentName.patch).cam ∈ (animDefs AgentName.patch).allowed ∧
  (s.anims AgentName.patch).inOffice = false

lemma moveStep_cases (n : AgentName) (night : Nat) (now : ℚ) (draw : Nat) (a : AgentState) :
    (moveStep n night now draw a).1 = a ∨
    (moveStep n night now draw a).1 =
      { a with cam := pickLoc (animDefs n).allowed draw, lastMove := now, lastSeen := now } := by
  rw [moveStep]
  split
  · exact Or.inr rfl
  · exact Or.inl rfl

lemma entryStep_patch_stay (night : Nat) (now : ℚ) (dl dr : Bool) (x : AgentState)
    (hx : x.cam ∈ (animDefs AgentName.patch).allowed) :
    entryStep .patch night now dl dr x = (x, []) := by
  simp only [entryStep]
  rw [if_neg]
  rintro ⟨h6, -⟩
  rw [h6] at hx
  exact absurd hx (by decide)

lemma updateAgent_patch_analysis (night : Nat) (now : ℚ) (dl dr mo : Bool)
    (ms : Option Nat) (draw : Nat) (a : AgentState)
    (hcam : a.cam ∈ (animDefs AgentName.patch).allowed) (hoff : a.inOffice = false) :
    ((updateAgent .patch night now dl dr mo ms draw a).1).cam ∈
      (animDefs AgentName.patch).allowed ∧
    ((updateAgent .patch night now dl dr mo ms draw a).1).inOffice = false ∧
    Event.entry AgentName.patch ∉ (updateAgent .patch night now dl dr mo ms draw a).2 := by
  by_cases hact : (animDefs AgentName.patch).activeFrom ≤ night
  · rw [updateAgent_run .patch night now dl dr mo ms draw a hact hoff]
    have hmv := moveStep_cases .patch night now draw ({ a with active := true } : AgentState)
    have hxcam : (seenStep mo ms now
        (moveStep .patch night now draw ({ a with active := true } : AgentState)).1).cam ∈
        (animDefs AgentName.patch).allowed := by
      rw [seenStep_cam]
      rcases hmv with h | h <;> rw [h]
      · simpa using hcam
      · exact pickLoc_mem _ (by decide) draw
    have hxoff : (seenStep mo ms now
        (moveStep .patch night now draw ({ a with active := true } : AgentState)).1).inOffice
        = false := by
      rw [seenStep_inOffice]
      rcases hmv with h | h <;> rw [h] <;> simpa using hoff
    rw [entryStep_patch_stay night now dl dr _ hxcam]
    refine ⟨hxcam, hxoff, ?_⟩
    rcases moveStep_events .patch night now draw ({ a with active := true } : AgentState)
        with h | h <;> simp [h]
  · have hd : decide ((animDefs AgentName.patch).activeFrom ≤ night) = false :=
      decide_eq_false hact
    have hskip : updateAgent .patch night now dl dr mo ms draw a =
        ({ a with active := false }, []) := by
      simp [updateAgent, hd]
    rw [hskip]
    exact ⟨by simpa using hcam, by simpa using hoff, by simp⟩

lemma patchSafe_step {s s' : GameState} (h : Step s s') (hs : PatchSafe s) : PatchSafe s' := by
  obtain ⟨hcam, hoff⟩ := hs
  cases h with
  | newGame =>
    exact ⟨by simpa [startNewGame, beginGamePlayInit] using hcam,
      by simpa [startNewGame, beginGamePlayInit] using hoff⟩
  | clock delta =>
    cases hst : s.started with
    | false => rw [clockTick_not_started s delta hst]; exact ⟨hcam, hoff⟩
    | true =>
      rw [clockTick_started s delta hst]
      exact ⟨by simpa using hcam, by simpa using hoff⟩
  | ai now draws =>
    have := updateAgent_patch_analysis s.night now s.doorLeftClosed s.doorRightClosed
      s.monitorOpen s.monitorSingle (draws .patch) (s.anims .patch) hcam hoff
    exact ⟨this.1, this.2.1⟩
  | expire n t h =>
    rcases eq_or_ne AgentName.patch n with rfl | hne
    · refine ⟨?_, ?_⟩ <;> simp [expireBreach, Function.update_same]
      exact hcam
    · refine ⟨?_, ?_⟩ <;> simp [expireBreach, Function.update_noteq hne]
      · exact hcam
      · exact hoff
  | input dl dr mo ms => exact ⟨hcam, hoff⟩

lemma patchSafe_reachable (t0 : ℚ) (s : GameState) (h : Reachable t0 s) : PatchSafe s := by
  induction h with
  | refl =>
    refine ⟨?_, ?_⟩
    · show (animDefs AgentName.patch).start ∈ (animDefs AgentName.patch).allowed
      decide
    · rfl
  | tail _ hstep ih => exact patchSafe_step hstep ih

/-- C10: in every reachable state of the simulation patch stands inside
its allowed set {1,2,4} (it starts at 1 and relocations only pick from
that set), so its current location never equals its trigger location 6,
its inOffice flag stays false forever, and no updateAI pass from a
reachable state ever emits an entry event for patch. -/
theorem patch_never_enters (t0 : ℚ) (s : GameState) (h : Reachable t0 s) :
    (s.anims AgentName.patch).cam ∈ (animDefs AgentName.patch).allowed ∧
    (s.anims AgentName.patch).cam ≠ 6 ∧
    (s.anims AgentName.patch).inOffice = false ∧
    ∀ (now : ℚ) (draws : AgentName → Nat),
      Event.entry AgentName.patch ∉ (updateAI s now draws).2 := by
  have hp := patchSafe_reachable t0 s h
  refine ⟨hp.1, ?_, hp.2, ?_⟩
  · intro h6
    exact absurd (h6 ▸ hp.1) (by decide)
  · intro now draws he
    simp only [updateAI] at he
    rw [List.mem_append, List.mem_append, List.mem_append] at he
    rcases he with h1 | (h2 | (h3 | h4))
    · rcases updateAgent_event_mem .vale s.night now s.doorLeftClosed s.doorRightClosed
        s.monitorOpen s.monitorSingle (draws .vale) (s.anims .vale) _ h1 with h | h <;>
        simp at h
    · exact (updateAgent_patch_analysis s.night now s.doorLeftClosed s.doorRightClosed
        s.monitorOpen s.monitorSingle (draws .patch) (s.anims .patch) hp.1 hp.2).2.2 h2
    · rcases updateAgent_event_mem .lulla s.night now s.doorLeftClosed s.doorRightClosed
        s.monitorOpen s.monitorSingle (draws .lulla) (s.anims .lulla) _ h3 with h | h <;>
        simp at h
    · rcases updateAgent_event_mem .rust s.night now s.doorLeftClosed s.doorRightClosed
        s.monitorOpen s.monitorSingle (draws .rust) (s.anims .rust) _ h4 with h | h <;>
        simp at h

/-- Witness for C10 at the load state itself. -/
theorem patch_never_enters_witness :
    ((initState 0).anims AgentName.patch).cam ∈ (animDefs AgentName.patch).allowed ∧
    ((initState 0).anims AgentName.patch).cam ≠ 6 ∧
    ((initState 0).anims AgentName.patch).inOffice = false ∧
    ∀ (now : ℚ) (draws : AgentName → Nat),
      Event.entry AgentName.patch ∉ (updateAI (initState 0) now draws).2 :=
  patch_never_enters 0 (initState 0) Relation.ReflTransGen.refl

end HollowCreek
